import Mathlib

/-!
Verification development for the ASLAppServer speech-relay core.

The definitions below are a shallow embedding of the Python sources:
  * `b64decode` models `base64.b64decode` (non-validate mode, as CPython's
    `binascii.a2b_base64` implements it), returning `none` where Python raises;
  * `ChirpStreamer` and the generator semantics model
    `speech/chirp_stream.py` (`add_audio_base64`, `finish`,
    `_request_generator`) and its `backend/speech` variant;
  * `speaker_label_from_result` models the function of the same name;
  * `relayResults` / `runRelay` model the `consume_responses` closure of
    `app.py` (`db` is disabled there, so persistence writes never happen);
  * `handleMessage` models one iteration of the websocket receive loop of
    `app.py` (`speech_ws`), with ghost counters for created sessions,
    started relay threads and discarded streamers.
Bytes are `Nat` (values < 256 in practice), byte strings are `List Nat`.
-/

namespace ASLApp

/-- Value of a standard base64 alphabet character, `none` for any other
character (such characters are skipped in non-validate mode). -/
def b64Val (c : Char) : Option Nat :=
  if 'A' ≤ c ∧ c ≤ 'Z' then some (c.toNat - 65)
  else if 'a' ≤ c ∧ c ≤ 'z' then some (c.toNat - 97 + 26)
  else if '0' ≤ c ∧ c ≤ '9' then some (c.toNat - 48 + 52)
  else if c = '+' then some 62
  else if c = '/' then some 63
  else none

/-- Core decode loop of CPython's `binascii.a2b_base64` in non-strict mode:
state is (input, quad position, left-over bits, consecutive pad count,
output).  A pad that completes a quad ends decoding successfully; leftover
quad positions 1..3 at end of input are an error (`none`). -/
def a2bBase64 : List Char → Nat → Nat → Nat → List Nat → Option (List Nat)
  | [], quad_pos, _, _, out => if quad_pos = 0 then some out else none
  | c :: rest, quad_pos, leftchar, pads, out =>
    if c = '=' then
      if 2 ≤ quad_pos then
        if 4 ≤ quad_pos + (pads + 1) then some out
        else a2bBase64 rest quad_pos leftchar (pads + 1) out
      else a2bBase64 rest quad_pos leftchar pads out
    else
      match b64Val c with
      | none => a2bBase64 rest quad_pos leftchar pads out
      | some v =>
        match quad_pos with
        | 0 => a2bBase64 rest 1 v 0 out
        | 1 => a2bBase64 rest 2 (v % 16) 0 (out ++ [leftchar * 4 + v / 16])
        | 2 => a2bBase64 rest 3 (v % 4) 0 (out ++ [leftchar * 16 + v / 4])
        | _ => a2bBase64 rest 0 0 0 (out ++ [leftchar * 64 + v])

/-- Model of Python `base64.b64decode` on a `str` argument: the string must
be pure ASCII (otherwise `encode("ascii")` raises, modelled as `none`),
then the `a2b_base64` loop runs.  `none` models a raised exception. -/
def b64decode (s : String) : Option (List Nat) :=
  if s.toList.all (fun c => c.toNat ≤ 127) then a2bBase64 s.toList 0 0 0 []
  else none

/-- State of one `ChirpStreamer`: the FIFO audio queue (`queue.Queue`) and
the terminal flag (`threading.Event`). -/
structure ChirpStreamer where
  audio_q : List (List Nat)
  finished : Bool
deriving DecidableEq, Repr

/-- `ChirpStreamer()`: empty queue, finish flag clear. -/
def ChirpStreamer.new : ChirpStreamer := ⟨[], false⟩

/-- `add_audio_base64`: decode and enqueue; any exception (bad base64) is
swallowed, leaving the streamer unchanged.  The unbounded queue's
`put(block=False)` itself never fails. -/
def ChirpStreamer.add_audio_base64 (st : ChirpStreamer) (b64 : String) : ChirpStreamer :=
  match b64decode b64 with
  | some bs => { st with audio_q := st.audio_q ++ [bs] }
  | none => st

/-- `finish()`: set the terminal flag. -/
def ChirpStreamer.finish (st : ChirpStreamer) : ChirpStreamer :=
  { st with finished := true }

end ASLApp

namespace ASLApp

/-- `filterNE q` keeps the chunks that are truthy in Python (non-empty byte
strings); the outbound loop's `if chunk:` test drops the rest. -/
def filterNE (q : List (List Nat)) : List (List Nat) :=
  q.filter (fun c => !c.isEmpty)

/-- External events interleaved with the `_request_generator` loop:
a producer call to `add_audio_base64`, a call to `finish()`, or one
iteration of the generator's own polling loop (`wake`). -/
inductive GEvent where
  | push (b64 : String)
  | finishCall
  | wake
deriving DecidableEq, Repr

/-- Generator-side state: the streamer it drains, whether the generator
loop has exited (`done`), and the audio chunks yielded so far in order. -/
structure GenState where
  streamer : ChirpStreamer
  done : Bool
  out : List (List Nat)
deriving DecidableEq, Repr

/-- One interleaving step.  A `wake` runs one iteration of
`while not self._finished.is_set() or not self._audio_q.empty():` —
if the condition fails the generator returns (`done`); on an empty queue
the `queue.Empty` timeout just loops; otherwise the head chunk is popped
and yielded iff non-empty. -/
def genStep (s : GenState) (e : GEvent) : GenState :=
  match e with
  | .push b64 => { s with streamer := s.streamer.add_audio_base64 b64 }
  | .finishCall => { s with streamer := s.streamer.finish }
  | .wake =>
    if s.done then s
    else
      match s.streamer.audio_q with
      | [] => if s.streamer.finished then { s with done := true } else s
      | c :: rest =>
        { s with
          streamer := { s.streamer with audio_q := rest },
          out := if c.isEmpty then s.out else s.out ++ [c] }

/-- Run a sequence of interleaving steps. -/
def genRun (s : GenState) : List GEvent → GenState
  | [] => s
  | e :: tr => genRun (genStep s e) tr

/-- Initial generator state over a fresh streamer. -/
def genInit : GenState := ⟨ChirpStreamer.new, false, []⟩

/-- The successfully decoded payloads of the `push` events of a trace, in
order (pushes whose decoding fails contribute nothing). -/
def decodedPushes : List GEvent → List (List Nat)
  | [] => []
  | .push b :: tr =>
    (match b64decode b with | some bs => [bs] | none => []) ++ decodedPushes tr
  | _ :: tr => decodedPushes tr

/-- The fields of the `StreamingRecognitionConfig` the streamer builds
(`_get_streaming_config`): recognition parameters plus the two streaming
flags. -/
structure StreamingConfig where
  language_code : String
  sample_rate_hertz : Nat
  max_speaker_count : Nat
  interim_results : Bool
  single_utterance : Bool
deriving DecidableEq, Repr

/-- `_get_streaming_config` / the config block of the backend
`_request_generator`: diarization bound is `max(1, count)`,
`interim_results=False`, `single_utterance=False`. -/
def mkStreamingConfig (language_code : String) (sample_rate_hz : Nat)
    (diarization_speaker_count : Nat) : StreamingConfig :=
  ⟨language_code, sample_rate_hz, max 1 diarization_speaker_count, false, false⟩

/-- One `StreamingRecognizeRequest`: either the one-time configuration
envelope or an audio-content message. -/
inductive Request where
  | config (c : StreamingConfig)
  | audio (chunk : List Nat)
deriving DecidableEq, Repr

/-- Whether a request is an audio-content message. -/
def Request.isAudio : Request → Bool
  | .audio _ => true
  | .config _ => false

/-- Full outbound request sequence of one upstream stream for a given
interleaving trace: the backend `_request_generator` yields the
configuration request first and then runs the audio loop (in the
`speech_v1` variant the client helper prepends the same config request
around the audio-only generator). -/
def requestStream (cfg : StreamingConfig) (tr : List GEvent) : List Request :=
  Request.config cfg :: (genRun genInit tr).out.map Request.audio

/-- One word of a recognition alternative with its diarization tag
(proto3 numeric field: an absent tag reads as 0). -/
structure WordInfo where
  speaker_tag : Nat
deriving DecidableEq, Repr

/-- One `SpeechRecognitionAlternative`: transcript text and word list. -/
structure SpeechAlt where
  transcript : String
  words : List WordInfo
deriving DecidableEq, Repr

/-- One `StreamingRecognitionResult`. -/
structure RecResult where
  is_final : Bool
  alternatives : List SpeechAlt
deriving DecidableEq, Repr

/-- One `StreamingRecognizeResponse`. -/
structure RecResponse where
  results : List RecResult
deriving DecidableEq, Repr

/-- Model of Python `chr`: defined on code points up to `0x10FFFF`,
raising (here `none`) beyond.  (Lean's `Char` normalises the surrogate
range to the null character; no claim touches that range.) -/
def pyChr (n : Nat) : Option Char :=
  if n ≤ 1114111 then some (Char.ofNat n) else none

/-- `speaker_label_from_result`: last word of the first alternative; a
truthy (non-zero) tag yields `"Speaker " + chr(ord('A') - 1 + tag)`;
missing alternative, empty word list, zero tag, or a `chr` failure all
fall through to `None` via the `try/except`. -/
def speaker_label_from_result (r : RecResult) : Option String :=
  match r.alternatives.head? with
  | none => none
  | some alt =>
    match alt.words.getLast? with
    | none => none
    | some w =>
      if w.speaker_tag ≠ 0 then
        match pyChr (64 + w.speaker_tag) with
        | some ch => some ("Speaker " ++ ch.toString)
        | none => none
      else none

end ASLApp

namespace ASLApp

/-- Whether `needle` starts `hay` (character lists). -/
def startsList : List Char → List Char → Bool
  | [], _ => true
  | _ :: _, [] => false
  | a :: as, b :: bs => a = b && startsList as bs

/-- Whether `needle` occurs contiguously inside `hay` — Python's
`needle in hay` on strings. -/
def hasSubstr (needle : List Char) : List Char → Bool
  | [] => needle.isEmpty
  | c :: rest => startsList needle (c :: rest) || hasSubstr needle rest

/-- The timeout classification of `consume_responses`:
`"Audio Timeout" in str(e) or "Audio Timeout Error" in str(e)`. -/
def timeoutMatch (e : String) : Bool :=
  hasSubstr "Audio Timeout".toList e.toList
    || hasSubstr "Audio Timeout Error".toList e.toList

/-- The shared `streamer_state` dict of `speech_ws`: the current streamer
and the `active` flag. -/
structure SharedState where
  streamer : ChirpStreamer
  active : Bool
deriving DecidableEq, Repr

/-- One outbound `final_transcript` client message (text plus optional
speaker label). -/
structure FinalMsg where
  text : String
  speaker : Option String
deriving DecidableEq, Repr

/-- Python whitespace on the ASCII range (space, tab, newline, carriage
return, vertical tab, form feed) — what `str.strip()` removes. -/
def isPySpace (c : Char) : Bool :=
  c = ' ' || c = '\t' || c = '\n' || c = '\r' || c.toNat = 11 || c.toNat = 12

/-- Model of Python `str.strip()`: drop whitespace from both ends. -/
def pyStrip (s : String) : String :=
  String.mk (((s.data.dropWhile isPySpace).reverse.dropWhile isPySpace).reverse)

/-- Transcript extraction of the relay:
`(result.alternatives[0].transcript or "").strip()`, with the
`IndexError` on a missing alternative caught to `""`. -/
def resultTranscript (r : RecResult) : String :=
  match r.alternatives.head? with
  | some alt => pyStrip alt.transcript
  | none => ""

/-- Outcome of one relay run: the shared state afterwards, the messages
successfully sent to the client in order, and whether the relay returned
early because a client send failed. -/
structure RelayOutcome where
  shared : SharedState
  sent : List FinalMsg
  earlyReturn : Bool
deriving DecidableEq, Repr

/-- Inner loop of `consume_responses` over the flattened result sequence.
`sendOk k` is the outcome of the k-th attempted `ws.send`; on a failed
send the relay calls `finish()` on the streamer held in the shared state
and returns at once. -/
def relayResults (sendOk : Nat → Bool) :
    Nat → SharedState → List FinalMsg → List RecResult → RelayOutcome
  | _, sh, acc, [] => ⟨sh, acc, false⟩
  | k, sh, acc, r :: rs =>
    if r.is_final = true then
      if resultTranscript r ≠ "" then
        if sendOk k = true then
          relayResults sendOk (k + 1) sh
            (acc ++ [⟨resultTranscript r, speaker_label_from_result r⟩]) rs
        else ⟨{ sh with streamer := sh.streamer.finish }, acc, true⟩
      else relayResults sendOk k sh acc rs
    else relayResults sendOk k sh acc rs

/-- Full `consume_responses` run: `results` are the results delivered by
the upstream iterator before it terminates; `terminal` is `none` for a
normal close and `some e` when iteration raised the error message `e`.
The exception handler marks the session inactive exactly when the message
matches the timeout test; a relay that already returned early (send
failure) never reaches the handler. -/
def runRelay (sendOk : Nat → Bool) (sh : SharedState) (results : List RecResult)
    (terminal : Option String) : RelayOutcome :=
  let o := relayResults sendOk 0 sh [] results
  if o.earlyReturn then o
  else
    match terminal with
    | some e =>
      if timeoutMatch e then { o with shared := { o.shared with active := false } }
      else o
    | none => o

/-- The messages the relay would send for a result sequence if every send
succeeded: final results with a non-empty trimmed transcript, in order. -/
def sendables (results : List RecResult) : List FinalMsg :=
  results.filterMap fun r =>
    if r.is_final = true ∧ resultTranscript r ≠ "" then
      some ⟨resultTranscript r, speaker_label_from_result r⟩
    else none

/-- A parsed client JSON message: the `event`, `data` and
`conversation_id` fields (absent fields are `none`). -/
structure ClientMsg where
  event : Option String
  data : Option String
  conversation_id : Option String
deriving DecidableEq, Repr

/-- Python truthiness of an optional string (`None` and `""` are falsy). -/
def pyTruthy : Option String → Bool
  | none => false
  | some s => !s.isEmpty

/-- The conversation-id merge used by the `audio_chunk` and
`end`/`finish`/`close` branches: adopt the incoming id only when the
current one is falsy and the incoming one truthy. -/
def adoptIfUnset (cur incoming : Option String) : Option String :=
  if pyTruthy cur then cur
  else
    match incoming with
    | some c => if !c.isEmpty then some c else cur
    | none => cur

/-- Per-connection state of `speech_ws`: the session fields plus ghost
observation fields — how many `ChirpStreamer()` constructions and relay
thread starts have happened, and the discarded (replaced) streamers. -/
structure AppState where
  conversation_id : Option String
  streamer : ChirpStreamer
  active : Bool
  sessionsCreated : Nat
  relaysStarted : Nat
  discarded : List ChirpStreamer
deriving DecidableEq, Repr

/-- One iteration of the `speech_ws` receive loop on a parsed message.
Returns the new state and whether the loop continues (`false` = `break`).
On `audio_chunk` with the session inactive: finish and discard the old
streamer, install a fresh one, mark active, start one new relay thread,
then push the chunk to the (new) current streamer; `data` defaults to
`""` (`b64 or ""`). -/
def handleMessage (s : AppState) (m : ClientMsg) : AppState × Bool :=
  match m.event with
  | some "audio_chunk" =>
    let s1 := { s with conversation_id := adoptIfUnset s.conversation_id m.conversation_id }
    let s2 :=
      if s1.active = false then
        { s1 with
          discarded := s1.discarded ++ [s1.streamer.finish],
          streamer := ChirpStreamer.new,
          active := true,
          sessionsCreated := s1.sessionsCreated + 1,
          relaysStarted := s1.relaysStarted + 1 }
      else s1
    ({ s2 with streamer := s2.streamer.add_audio_base64 (m.data.getD "") }, true)
  | some "end" | some "finish" | some "close" =>
    let s1 := { s with conversation_id := adoptIfUnset s.conversation_id m.conversation_id }
    ({ s1 with streamer := s1.streamer.finish }, false)
  | some "set_conversation" =>
    match m.conversation_id with
    | some c => if !c.isEmpty then ({ s with conversation_id := some c }, true) else (s, true)
    | none => (s, true)
  | _ => (s, true)

end ASLApp

namespace ASLApp

/-! ### Helper lemmas about the generator semantics -/

lemma genRun_append (t1 : List GEvent) :
    ∀ (t2 : List GEvent) (s : GenState), genRun s (t1 ++ t2) = genRun (genRun s t1) t2 := by
  induction t1 with
  | nil => intro t2 s; rfl
  | cons e t1 ih => intro t2 s; simp only [List.cons_append, genRun]; exact ih t2 (genStep s e)

lemma filterNE_append (a b : List (List Nat)) :
    filterNE (a ++ b) = filterNE a ++ filterNE b := by
  simp [filterNE, List.filter_append]

/-- Invariant of one interleaving step: the yielded output followed by the
truthy part of the queue grows exactly by the truthy part of any newly
decoded push. -/
lemma genStep_out_inv (s : GenState) (e : GEvent) :
    (genStep s e).out ++ filterNE (genStep s e).streamer.audio_q
      = (s.out ++ filterNE s.streamer.audio_q) ++ filterNE (decodedPushes [e]) := by
  cases e with
  | push b =>
    simp only [genStep, ChirpStreamer.add_audio_base64, decodedPushes]
    cases hb : b64decode b with
    | none => simp [filterNE]
    | some bs => simp [filterNE_append, filterNE]
  | finishCall => simp [genStep, ChirpStreamer.finish, decodedPushes, filterNE]
  | wake =>
    simp only [genStep, decodedPushes]
    by_cases hd : s.done
    · simp [hd, filterNE]
    · simp only [hd, if_false, Bool.false_eq_true]
      cases hq : s.streamer.audio_q with
      | nil =>
        cases hfin : s.streamer.finished <;> simp [hq, filterNE]
      | cons c rest =>
        by_cases hc : c.isEmpty
        · simp [hq, hc, filterNE, List.filter_cons]
        · simp [hq, hc, filterNE, List.filter_cons]

lemma genRun_out_inv (tr : List GEvent) :
    ∀ s : GenState,
      (genRun s tr).out ++ filterNE (genRun s tr).streamer.audio_q
        = (s.out ++ filterNE s.streamer.audio_q) ++ filterNE (decodedPushes tr) := by
  induction tr with
  | nil => intro s; simp [genRun, decodedPushes, filterNE]
  | cons e tr ih =>
    intro s
    have hstep := genStep_out_inv s e
    have htr := ih (genStep s e)
    have hdp : decodedPushes (e :: tr)
        = decodedPushes [e] ++ decodedPushes tr := by
      cases e <;> simp [decodedPushes]
    calc (genRun s (e :: tr)).out ++ filterNE (genRun s (e :: tr)).streamer.audio_q
        = (genRun (genStep s e) tr).out
            ++ filterNE (genRun (genStep s e) tr).streamer.audio_q := rfl
      _ = ((genStep s e).out ++ filterNE (genStep s e).streamer.audio_q)
            ++ filterNE (decodedPushes tr) := htr
      _ = ((s.out ++ filterNE s.streamer.audio_q) ++ filterNE (decodedPushes [e]))
            ++ filterNE (decodedPushes tr) := by rw [hstep]
      _ = (s.out ++ filterNE s.streamer.audio_q) ++ filterNE (decodedPushes (e :: tr)) := by
            rw [hdp, filterNE_append, List.append_assoc]

/-- After `finish()` a streamer with queue `q` is fully drained by
`q.length + 1` loop iterations: every truthy chunk is yielded in order and
the loop then exits. -/
lemma genRun_drain : ∀ (q out : List (List Nat)),
    genRun ⟨⟨q, true⟩, false, out⟩ (List.replicate (q.length + 1) GEvent.wake)
      = ⟨⟨[], true⟩, true, out ++ filterNE q⟩ := by
  intro q
  induction q with
  | nil =>
    intro out
    simp [genRun, genStep, filterNE, List.replicate]
  | cons c rest ih =>
    intro out
    have hr : List.replicate ((c :: rest).length + 1) GEvent.wake
        = GEvent.wake :: List.replicate (rest.length + 1) GEvent.wake := by
      simp [List.replicate_succ]
    rw [hr]
    show genRun (genStep ⟨⟨c :: rest, true⟩, false, out⟩ GEvent.wake)
        (List.replicate (rest.length + 1) GEvent.wake) = _
    by_cases hc : c.isEmpty
    · have : genStep ⟨⟨c :: rest, true⟩, false, out⟩ GEvent.wake
          = ⟨⟨rest, true⟩, false, out⟩ := by simp [genStep, hc]
      rw [this, ih]
      simp [filterNE, List.filter_cons, hc]
    · have : genStep ⟨⟨c :: rest, true⟩, false, out⟩ GEvent.wake
          = ⟨⟨rest, true⟩, false, out ++ [c]⟩ := by simp [genStep, hc]
      rw [this, ih]
      simp [filterNE, List.filter_cons, hc]

/-- With the finish flag set and no further pushes, every chunk the
generator still yields comes off the front of the queue it had when
finish was observed. -/
lemma genRun_nopush (tr : List GEvent) (hnp : ∀ b, GEvent.push b ∉ tr) :
    ∀ s : GenState, s.streamer.finished = true →
      ∃ c, s.streamer.audio_q = c ++ (genRun s tr).streamer.audio_q
        ∧ (genRun s tr).out = s.out ++ filterNE c
        ∧ (genRun s tr).streamer.finished = true := by
  induction tr with
  | nil =>
    intro s hf
    exact ⟨[], by simp [genRun], by simp [genRun, filterNE], hf⟩
  | cons e tr ih =>
    intro s hf
    have hnp' : ∀ b, GEvent.push b ∉ tr := fun b hb => hnp b (List.mem_cons_of_mem _ hb)
    obtain ⟨⟨q0, f0⟩, d0, out0⟩ := s
    replace hf : f0 = true := hf
    subst hf
    cases e with
    | push b => exact absurd (List.mem_cons_self _ _) (hnp b)
    | finishCall =>
      have hstep : genStep ⟨⟨q0, true⟩, d0, out0⟩ GEvent.finishCall
          = ⟨⟨q0, true⟩, d0, out0⟩ := by
        simp [genStep, ChirpStreamer.finish]
      have hrun : genRun (⟨⟨q0, true⟩, d0, out0⟩ : GenState) (GEvent.finishCall :: tr)
          = genRun ⟨⟨q0, true⟩, d0, out0⟩ tr := by
        show genRun (genStep ⟨⟨q0, true⟩, d0, out0⟩ GEvent.finishCall) tr = _
        rw [hstep]
      obtain ⟨c, h1, h2, h3⟩ := ih hnp' ⟨⟨q0, true⟩, d0, out0⟩ rfl
      exact ⟨c, by rw [hrun]; exact h1, by rw [hrun]; exact h2, by rw [hrun]; exact h3⟩
    | wake =>
      by_cases hd : d0 = true
      · subst hd
        have hrun : genRun (⟨⟨q0, true⟩, true, out0⟩ : GenState) (GEvent.wake :: tr)
            = genRun ⟨⟨q0, true⟩, true, out0⟩ tr := by
          show genRun (genStep ⟨⟨q0, true⟩, true, out0⟩ GEvent.wake) tr = _
          simp [genStep]
        obtain ⟨c, h1, h2, h3⟩ := ih hnp' ⟨⟨q0, true⟩, true, out0⟩ rfl
        exact ⟨c, by rw [hrun]; exact h1, by rw [hrun]; exact h2, by rw [hrun]; exact h3⟩
      · replace hd : d0 = false := by cases d0 <;> simp_all
        subst hd
        cases q0 with
        | nil =>
          have hrun : genRun (⟨⟨[], true⟩, false, out0⟩ : GenState) (GEvent.wake :: tr)
              = genRun ⟨⟨[], true⟩, true, out0⟩ tr := by
            show genRun (genStep ⟨⟨[], true⟩, false, out0⟩ GEvent.wake) tr = _
            simp [genStep]
          obtain ⟨c, h1, h2, h3⟩ := ih hnp' ⟨⟨[], true⟩, true, out0⟩ rfl
          exact ⟨c, by rw [hrun]; exact h1, by rw [hrun]; exact h2, by rw [hrun]; exact h3⟩
        | cons c0 rest =>
          have hstep : genStep (⟨⟨c0 :: rest, true⟩, false, out0⟩ : GenState) GEvent.wake
              = ⟨⟨rest, true⟩, false, if c0.isEmpty then out0 else out0 ++ [c0]⟩ := by
            simp [genStep]
          have hrun : genRun (⟨⟨c0 :: rest, true⟩, false, out0⟩ : GenState) (GEvent.wake :: tr)
              = genRun ⟨⟨rest, true⟩, false, if c0.isEmpty then out0 else out0 ++ [c0]⟩ tr := by
            show genRun (genStep ⟨⟨c0 :: rest, true⟩, false, out0⟩ GEvent.wake) tr = _
            rw [hstep]
          obtain ⟨c, h1, h2, h3⟩ :=
            ih hnp' ⟨⟨rest, true⟩, false, if c0.isEmpty then out0 else out0 ++ [c0]⟩ rfl
          refine ⟨c0 :: c, ?_, ?_, by rw [hrun]; exact h3⟩
          · rw [hrun, List.cons_append]
            exact congrArg (c0 :: ·) h1
          · rw [hrun, h2]
            by_cases hc : c0.isEmpty
            · simp [hc, filterNE, List.filter_cons]
            · simp [hc, filterNE, List.filter_cons]

/-- A trace consisting only of pushes just feeds the queue: the decoded
chunks are appended in order and nothing else changes. -/
lemma genRun_pushes : ∀ (bs : List String) (q : List (List Nat)) (f d : Bool)
    (out : List (List Nat)),
    genRun ⟨⟨q, f⟩, d, out⟩ (bs.map GEvent.push)
      = ⟨⟨q ++ decodedPushes (bs.map GEvent.push), f⟩, d, out⟩ := by
  intro bs
  induction bs with
  | nil => intro q f d out; simp [genRun, decodedPushes]
  | cons b bs ih =>
    intro q f d out
    show genRun (genStep ⟨⟨q, f⟩, d, out⟩ (GEvent.push b)) (bs.map GEvent.push) = _
    simp only [genStep, ChirpStreamer.add_audio_base64, decodedPushes, List.map_cons]
    cases hb : b64decode b with
    | none =>
      simp only [decodedPushes]
      have := ih q f d out
      simp only [List.map_cons] at this ⊢
      simpa [decodedPushes, hb] using this
    | some v =>
      have := ih (q ++ [v]) f d out
      simp only [List.map_cons] at this ⊢
      simpa [decodedPushes, hb, List.append_assoc] using this

end ASLApp

namespace ASLApp

lemma countP_map_audio (l : List (List Nat)) :
    (l.map Request.audio).countP (fun m => !m.isAudio) = 0 := by
  induction l with
  | nil => simp
  | cons c l ih => simp [List.countP_cons, Request.isAudio, ih]

/-- Claim C2: within one upstream session's duplex stream, the
configuration message is sent exactly once, strictly before every audio
message: for every interleaving trace the request sequence starts with the
configuration request, contains exactly one non-audio (configuration)
request, and everything after the head is an audio message. -/
theorem c2_config_once_and_first (cfg : StreamingConfig) (tr : List GEvent) :
    (requestStream cfg tr).head? = some (Request.config cfg)
      ∧ (requestStream cfg tr).countP (fun m => !m.isAudio) = 1
      ∧ ∀ m ∈ (requestStream cfg tr).tail, m.isAudio = true := by
  refine ⟨rfl, ?_, ?_⟩
  · simp [requestStream, List.countP_cons, Request.isAudio, countP_map_audio]
  · intro m hm
    simp only [requestStream, List.tail_cons, List.mem_map] at hm
    obtain ⟨c, _, rfl⟩ := hm
    rfl

/-- Claim C3: once `finish()` has been called (terminal flag set, generator
loop still running), with no further pushes the generator only ever yields
chunks that were already in the buffer at that instant (in order), and
enough loop iterations drain exactly the buffered truthy chunks, after
which the loop stops. -/
theorem c3_drain_after_finish (s : GenState)
    (hf : s.streamer.finished = true) (hd : s.done = false) :
    (∀ tr : List GEvent, (∀ b, GEvent.push b ∉ tr) →
        ∃ l rest2, (genRun s tr).out = s.out ++ l
          ∧ l ++ rest2 = filterNE s.streamer.audio_q)
      ∧ (genRun s (List.replicate (s.streamer.audio_q.length + 1) GEvent.wake)).out
          = s.out ++ filterNE s.streamer.audio_q
      ∧ (genRun s (List.replicate (s.streamer.audio_q.length + 1) GEvent.wake)).done
          = true := by
  constructor
  · intro tr hnp
    obtain ⟨c, h1, h2, _⟩ := genRun_nopush tr hnp s hf
    refine ⟨filterNE c, filterNE (genRun s tr).streamer.audio_q, h2, ?_⟩
    rw [← filterNE_append, ← h1]
  · obtain ⟨⟨q0, f0⟩, d0, out0⟩ := s
    replace hf : f0 = true := hf
    replace hd : d0 = false := hd
    subst hf; subst hd
    rw [genRun_drain]
    exact ⟨rfl, rfl⟩

/-- Counterexample to claim C5 as stated: the input `""` is valid base64
(decoding to the empty byte string) and is pushed to the buffer, yet after
a full drain the generator has yielded only the other chunk — the decoded
chunks do not all appear on the outbound stream. -/
theorem c5_counterexample :
    decodedPushes
        [GEvent.push "QUJD", GEvent.push "", GEvent.finishCall,
          GEvent.wake, GEvent.wake, GEvent.wake]
      = [[65, 66, 67], []]
    ∧ (genRun genInit
        [GEvent.push "QUJD", GEvent.push "", GEvent.finishCall,
          GEvent.wake, GEvent.wake, GEvent.wake]).done = true
    ∧ (genRun genInit
        [GEvent.push "QUJD", GEvent.push "", GEvent.finishCall,
          GEvent.wake, GEvent.wake, GEvent.wake]).streamer.audio_q = []
    ∧ (genRun genInit
        [GEvent.push "QUJD", GEvent.push "", GEvent.finishCall,
          GEvent.wake, GEvent.wake, GEvent.wake]).out
        = [[65, 66, 67]]
    ∧ ([[65, 66, 67]] : List (List Nat)) ≠ [[65, 66, 67], []] := by
  refine ⟨by decide, by decide, by decide, by decide, by decide⟩

/-- Claim C5 (amended): chunks whose base64 decoding succeeds are enqueued
in FIFO order, and the outbound stream carries exactly the non-empty
decoded chunks, byte-identical and in push order — at every point the
yielded output followed by the still-queued truthy chunks equals the
truthy part of all decoded pushes, and a push sequence followed by
`finish()` and a full drain yields exactly the non-empty decoded chunks. -/
theorem c5_fifo_byte_identical :
    (∀ tr : List GEvent,
        (genRun genInit tr).out ++ filterNE (genRun genInit tr).streamer.audio_q
          = filterNE (decodedPushes tr))
      ∧ ∀ bs : List String,
          (genRun genInit
              (bs.map GEvent.push ++ GEvent.finishCall ::
                List.replicate ((decodedPushes (bs.map GEvent.push)).length + 1)
                  GEvent.wake)).out
            = filterNE (decodedPushes (bs.map GEvent.push)) := by
  constructor
  · intro tr
    have h := genRun_out_inv tr genInit
    simpa [genInit, ChirpStreamer.new, filterNE] using h
  · intro bs
    have h1 : genRun genInit (bs.map GEvent.push)
        = ⟨⟨decodedPushes (bs.map GEvent.push), false⟩, false, []⟩ := by
      have := genRun_pushes bs [] false false []
      simpa [genInit, ChirpStreamer.new] using this
    rw [genRun_append, h1]
    have h2 : genStep (⟨⟨decodedPushes (bs.map GEvent.push), false⟩, false, []⟩ : GenState)
        GEvent.finishCall
        = ⟨⟨decodedPushes (bs.map GEvent.push), true⟩, false, []⟩ := by
      simp [genStep, ChirpStreamer.finish]
    have h3 : genRun (⟨⟨decodedPushes (bs.map GEvent.push), false⟩, false, []⟩ : GenState)
        (GEvent.finishCall ::
          List.replicate ((decodedPushes (bs.map GEvent.push)).length + 1) GEvent.wake)
        = genRun ⟨⟨decodedPushes (bs.map GEvent.push), true⟩, false, []⟩
            (List.replicate ((decodedPushes (bs.map GEvent.push)).length + 1) GEvent.wake) := by
      show genRun (genStep _ GEvent.finishCall) _ = _
      rw [h2]
    rw [h3, genRun_drain]
    simp

/-- Claim C6: an input whose base64 decoding fails is dropped silently —
`add_audio_base64` returns (no exception escapes, modelled by totality)
and the streamer, in particular its buffer, is unchanged. -/
theorem c6_invalid_base64_dropped (st : ChirpStreamer) (b64 : String)
    (h : b64decode b64 = none) :
    st.add_audio_base64 b64 = st := by
  unfold ChirpStreamer.add_audio_base64
  rw [h]

end ASLApp

namespace ASLApp

/-- Claim C4: a final result whose top alternative ends in a word with a
1-indexed speaker tag `t` yields the label
`"Speaker " ++ chr(ord("A") + t - 1)` (with `chr` modelled by `pyChr`,
`ord("A") = 65`); a last word carrying no tag (proto default 0) yields no
label. -/
theorem c4_speaker_label :
    (∀ (r : RecResult) (alt : SpeechAlt) (w : WordInfo),
        r.alternatives.head? = some alt → alt.words.getLast? = some w →
        1 ≤ w.speaker_tag →
        speaker_label_from_result r
          = (pyChr (65 + w.speaker_tag - 1)).map (fun ch => "Speaker " ++ ch.toString))
      ∧ (∀ (r : RecResult) (alt : SpeechAlt) (w : WordInfo),
          r.alternatives.head? = some alt → alt.words.getLast? = some w →
          w.speaker_tag = 0 → speaker_label_from_result r = none) := by
  constructor
  · intro r alt w h1 h2 ht
    have hne : w.speaker_tag ≠ 0 := by omega
    have harith : 65 + w.speaker_tag - 1 = 64 + w.speaker_tag := by omega
    rw [harith]
    simp only [speaker_label_from_result, h1, h2, if_pos hne]
    cases pyChr (64 + w.speaker_tag) <;> simp
  · intro r alt w h1 h2 ht
    simp [speaker_label_from_result, h1, h2, ht]

/-- Claim C10: a zero speaker tag on the last word is treated exactly like
an absent tag — no label; and the function is total, returning `none` on
a result with no alternatives and on one whose top alternative has no
words (the `try/except` paths). -/
theorem c10_zero_tag_and_safety :
    (∀ (r : RecResult) (alt : SpeechAlt) (w : WordInfo),
        r.alternatives.head? = some alt → alt.words.getLast? = some w →
        w.speaker_tag = 0 → speaker_label_from_result r = none)
      ∧ (∀ r : RecResult, r.alternatives = [] → speaker_label_from_result r = none)
      ∧ (∀ (r : RecResult) (alt : SpeechAlt),
          r.alternatives.head? = some alt → alt.words = [] →
          speaker_label_from_result r = none) := by
  refine ⟨?_, ?_, ?_⟩
  · intro r alt w h1 h2 ht
    simp [speaker_label_from_result, h1, h2, ht]
  · intro r h
    simp [speaker_label_from_result, h]
  · intro r alt h1 h2
    simp [speaker_label_from_result, h1, h2]

/-! ### Helper lemmas about the relay -/

lemma sendables_cons_skip (r : RecResult) (rs : List RecResult)
    (h : ¬(r.is_final = true ∧ resultTranscript r ≠ "")) :
    sendables (r :: rs) = sendables rs := by
  simp only [sendables, List.filterMap_cons]
  rw [if_neg h]

lemma sendables_cons_keep (r : RecResult) (rs : List RecResult)
    (h : r.is_final = true ∧ resultTranscript r ≠ "") :
    sendables (r :: rs)
      = ⟨resultTranscript r, speaker_label_from_result r⟩ :: sendables rs := by
  simp only [sendables, List.filterMap_cons]
  rw [if_pos h]

/-- If every attempted send succeeds, the relay delivers exactly the
sendable messages in order and leaves the shared state untouched. -/
lemma relayResults_ok (sendOk : Nat → Bool) :
    ∀ (results : List RecResult) (k : Nat) (sh : SharedState) (acc : List FinalMsg),
      (∀ i, i < (sendables results).length → sendOk (k + i) = true) →
      relayResults sendOk k sh acc results = ⟨sh, acc ++ sendables results, false⟩ := by
  intro results
  induction results with
  | nil => intro k sh acc _; simp [relayResults, sendables]
  | cons r rs ih =>
    intro k sh acc hok
    by_cases hsend : r.is_final = true ∧ resultTranscript r ≠ ""
    · have hsd := sendables_cons_keep r rs hsend
      have h0 : sendOk k = true := by
        have := hok 0 (by rw [hsd]; simp)
        simpa using this
      have hrec := ih (k + 1) sh
        (acc ++ [⟨resultTranscript r, speaker_label_from_result r⟩])
        (fun i hi => by
          have := hok (i + 1) (by rw [hsd]; simpa using Nat.succ_lt_succ hi)
          simpa [Nat.add_assoc, Nat.add_comm 1 i] using this)
      rw [relayResults, if_pos hsend.1, if_pos hsend.2, if_pos h0, hrec, hsd]
      simp
    · have hsd := sendables_cons_skip r rs hsend
      have hrec := ih k sh acc (fun i hi => hok i (by rwa [hsd]))
      by_cases hf : r.is_final = true
      · have ht : ¬resultTranscript r ≠ "" := fun hne => hsend ⟨hf, hne⟩
        rw [relayResults, if_pos hf, if_neg ht, hsd]
        exact hrec
      · rw [relayResults, if_neg hf, hsd]
        exact hrec

/-- If the j-th attempted send is the first to fail and at least j+1 sends
are attempted, the relay delivers exactly the first j sendable messages,
finishes the streamer held in the shared state and returns early, leaving
the `active` flag untouched. -/
lemma relayResults_fail (sendOk : Nat → Bool) :
    ∀ (results : List RecResult) (k : Nat) (sh : SharedState) (acc : List FinalMsg) (j : Nat),
      (∀ i, i < j → sendOk (k + i) = true) → sendOk (k + j) = false →
      j < (sendables results).length →
      relayResults sendOk k sh acc results
        = ⟨{ sh with streamer := sh.streamer.finish },
            acc ++ (sendables results).take j, true⟩ := by
  intro results
  induction results with
  | nil => intro k sh acc j _ _ hj; simp [sendables] at hj
  | cons r rs ih =>
    intro k sh acc j hok hfail hj
    by_cases hsend : r.is_final = true ∧ resultTranscript r ≠ ""
    · have hsd := sendables_cons_keep r rs hsend
      cases j with
      | zero =>
        have h0 : sendOk k = false := by simpa using hfail
        rw [relayResults, if_pos hsend.1, if_pos hsend.2, if_neg (by rw [h0]; simp)]
        simp
      | succ j' =>
        have h0 : sendOk k = true := by
          have := hok 0 (Nat.succ_pos j')
          simpa using this
        have hrec := ih (k + 1) sh
          (acc ++ [⟨resultTranscript r, speaker_label_from_result r⟩]) j'
          (fun i hi => by
            have := hok (i + 1) (Nat.succ_lt_succ hi)
            simpa [Nat.add_assoc, Nat.add_comm 1 i] using this)
          (by
            have : k + (j' + 1) = k + 1 + j' := by omega
            rwa [this] at hfail)
          (by rw [hsd] at hj; simpa using Nat.lt_of_succ_lt_succ hj)
        rw [relayResults, if_pos hsend.1, if_pos hsend.2, if_pos h0, hrec, hsd]
        simp [List.take_succ_cons]
    · have hsd := sendables_cons_skip r rs hsend
      have hrec := ih k sh acc j hok hfail (by rwa [hsd] at hj)
      by_cases hf : r.is_final = true
      · have ht : ¬resultTranscript r ≠ "" := fun hne => hsend ⟨hf, hne⟩
        rw [relayResults, if_pos hf, if_neg ht, hsd]
        exact hrec
      · rw [relayResults, if_neg hf, hsd]
        exact hrec

end ASLApp

namespace ASLApp

/-- Claim C7: when the j-th client send is the first to fail, the relay
calls `finish()` on the streamer held in its shared state — the session
whose results it is consuming, since a replacement only ever happens after
the consuming relay has already terminated — performs no further sends,
and returns at once, ignoring the rest of the result sequence and the
terminal condition (in particular the `active` flag is untouched). -/
theorem c7_send_failure_stops_relay (sendOk : Nat → Bool) (sh : SharedState)
    (results : List RecResult) (terminal : Option String) (j : Nat)
    (hok : ∀ i, i < j → sendOk i = true) (hfail : sendOk j = false)
    (hj : j < (sendables results).length) :
    runRelay sendOk sh results terminal
      = ⟨{ sh with streamer := sh.streamer.finish },
          (sendables results).take j, true⟩ := by
  have h := relayResults_fail sendOk results 0 sh [] j
    (fun i hi => by simpa using hok i hi)
    (by simpa using hfail) hj
  simp [runRelay, h]

/-- Claim C8: when every attempted send succeeds, the relay's `active`
flag ends up `false` exactly when the run terminated with an error whose
message matches the upstream inactivity-timeout test
(`"Audio Timeout" in str(e)`); on a normal close or an unmatched error
the shared session state is returned unchanged. -/
theorem c8_inactive_iff_timeout (sendOk : Nat → Bool) (sh : SharedState)
    (results : List RecResult) (terminal : Option String)
    (hactive : sh.active = true)
    (hok : ∀ i, i < (sendables results).length → sendOk i = true) :
    ((runRelay sendOk sh results terminal).shared.active = false
        ↔ ∃ e, terminal = some e ∧ timeoutMatch e = true)
      ∧ (∀ e, terminal = some e → timeoutMatch e = false →
          (runRelay sendOk sh results terminal).shared = sh)
      ∧ (terminal = none → (runRelay sendOk sh results terminal).shared = sh) := by
  have h := relayResults_ok sendOk results 0 sh []
    (fun i hi => by simpa using hok i hi)
  cases terminal with
  | none => simp [runRelay, h, hactive]
  | some e =>
    by_cases hm : timeoutMatch e = true
    · refine ⟨?_, ?_, by simp⟩
      · simp only [runRelay, h]
        simp [hm]
      · intro e' he' hm'
        rw [Option.some.injEq] at he'
        rw [← he'] at hm'
        rw [hm'] at hm
        exact absurd hm (by simp)
    · have hm' : timeoutMatch e = false := by
        cases hmm : timeoutMatch e
        · rfl
        · exact absurd hmm hm
      refine ⟨?_, ?_, by simp⟩
      · simp only [runRelay, h]
        simp [hm', hactive]
      · intro e' he' _
        simp only [runRelay, h]
        simp [hm']

end ASLApp

namespace ASLApp

/-- Claim C1: with the session marked inactive (after an upstream
inactivity timeout), an `audio_chunk` event whose payload decodes makes
the handler finish and discard the old streamer, create exactly one new
upstream session and start exactly one new relay task, mark the session
active again, and push the decoded bytes of that very chunk to the new
session's buffer; the receive loop continues. -/
theorem c1_recovery_on_audio_chunk (s : AppState) (m : ClientMsg)
    (b64 : String) (bs : List Nat)
    (hact : s.active = false) (hev : m.event = some "audio_chunk")
    (hdata : m.data = some b64) (hdec : b64decode b64 = some bs) :
    (handleMessage s m).1.sessionsCreated = s.sessionsCreated + 1
      ∧ (handleMessage s m).1.relaysStarted = s.relaysStarted + 1
      ∧ (handleMessage s m).1.active = true
      ∧ (handleMessage s m).1.discarded = s.discarded ++ [s.streamer.finish]
      ∧ (handleMessage s m).1.streamer = ⟨[bs], false⟩
      ∧ (handleMessage s m).2 = true := by
  simp only [handleMessage, hev, hdata]
  simp [hact, ChirpStreamer.add_audio_base64, hdec, ChirpStreamer.new]

/-- Counterexample to claim C9 as stated: on an `end` event that carries
`conversation_id = "c2"` while the session already holds `"c1"`, the
handler keeps `"c1"` — the carried id is not adopted. -/
theorem c9_counterexample :
    (handleMessage
        ⟨some "c1", ⟨[], false⟩, true, 1, 1, []⟩
        ⟨some "end", none, some "c2"⟩).1.conversation_id = some "c1"
      ∧ (some "c1" : Option String) ≠ some "c2" := by
  refine ⟨by decide, by decide⟩

/-- Claim C9 (amended): a `set_conversation` event with a non-empty id
always overwrites the current conversation id; an id carried on an
`audio_chunk` event is adopted only when none is set; and on an
`end`/`finish`/`close` event a carried id is likewise adopted only when
none is currently set (the only-if-unset merge), after which `finish()`
is called on the current streamer and the receive loop exits. -/
theorem c9_conversation_id_rules :
    (∀ (s : AppState) (m : ClientMsg) (c : String),
        m.event = some "set_conversation" → m.conversation_id = some c → c ≠ "" →
        (handleMessage s m).1.conversation_id = some c)
      ∧ (∀ (s : AppState) (m : ClientMsg),
          m.event = some "audio_chunk" → pyTruthy s.conversation_id = true →
          (handleMessage s m).1.conversation_id = s.conversation_id)
      ∧ (∀ (s : AppState) (m : ClientMsg) (c : String),
          m.event = some "audio_chunk" → pyTruthy s.conversation_id = false →
          m.conversation_id = some c → c ≠ "" →
          (handleMessage s m).1.conversation_id = some c)
      ∧ (∀ (s : AppState) (m : ClientMsg) (ev : String),
          (ev = "end" ∨ ev = "finish" ∨ ev = "close") → m.event = some ev →
          (handleMessage s m).1.conversation_id
              = adoptIfUnset s.conversation_id m.conversation_id
            ∧ (handleMessage s m).1.streamer = s.streamer.finish
            ∧ (handleMessage s m).2 = false) := by
  refine ⟨?_, ?_, ?_, ?_⟩
  · intro s m c hev hc hcne
    have hce : c.isEmpty = false := by
      cases hie : c.isEmpty
      · rfl
      · exact absurd ((String.isEmpty_iff c).mp hie) hcne
    simp [handleMessage, hev, hc, hce]
  · intro s m hev htr
    simp only [handleMessage, hev, adoptIfUnset, htr, if_true]
    split <;> rfl
  · intro s m c hev htr hc hcne
    have hce : c.isEmpty = false := by
      cases hie : c.isEmpty
      · rfl
      · exact absurd ((String.isEmpty_iff c).mp hie) hcne
    simp only [handleMessage, hev, adoptIfUnset, htr, hc, hce, Bool.false_eq_true,
      if_false, Bool.not_false, if_true]
    split <;> rfl
  · intro s m ev hev hm
    rcases hev with h | h | h <;> subst h <;> simp [handleMessage, hm]

end ASLApp

namespace ASLApp

/-- Witness for C1: a concrete inactive state and a decodable chunk. -/
theorem c1_recovery_witness :
    (⟨none, ⟨[[7]], false⟩, false, 1, 1, []⟩ : AppState).active = false
      ∧ (⟨some "audio_chunk", some "QUJD", none⟩ : ClientMsg).event = some "audio_chunk"
      ∧ b64decode "QUJD" = some [65, 66, 67]
      ∧ ((handleMessage ⟨none, ⟨[[7]], false⟩, false, 1, 1, []⟩
            ⟨some "audio_chunk", some "QUJD", none⟩).1.sessionsCreated = 2
        ∧ (handleMessage ⟨none, ⟨[[7]], false⟩, false, 1, 1, []⟩
            ⟨some "audio_chunk", some "QUJD", none⟩).1.relaysStarted = 2
        ∧ (handleMessage ⟨none, ⟨[[7]], false⟩, false, 1, 1, []⟩
            ⟨some "audio_chunk", some "QUJD", none⟩).1.active = true
        ∧ (handleMessage ⟨none, ⟨[[7]], false⟩, false, 1, 1, []⟩
            ⟨some "audio_chunk", some "QUJD", none⟩).1.discarded = [⟨[[7]], true⟩]
        ∧ (handleMessage ⟨none, ⟨[[7]], false⟩, false, 1, 1, []⟩
            ⟨some "audio_chunk", some "QUJD", none⟩).1.streamer = ⟨[[65, 66, 67]], false⟩
        ∧ (handleMessage ⟨none, ⟨[[7]], false⟩, false, 1, 1, []⟩
            ⟨some "audio_chunk", some "QUJD", none⟩).2 = true) :=
  ⟨rfl, rfl, by decide,
    c1_recovery_on_audio_chunk ⟨none, ⟨[[7]], false⟩, false, 1, 1, []⟩
      ⟨some "audio_chunk", some "QUJD", none⟩ "QUJD" [65, 66, 67]
      rfl rfl rfl (by decide)⟩

/-- Witness for C3: a finished streamer with buffer `[[1], [], [2]]` is
drained to the outbound chunks `[[1], [2]]` and the loop stops. -/
theorem c3_drain_witness :
    (⟨⟨[[1], [], [2]], true⟩, false, []⟩ : GenState).streamer.finished = true
      ∧ (⟨⟨[[1], [], [2]], true⟩, false, []⟩ : GenState).done = false
      ∧ (genRun ⟨⟨[[1], [], [2]], true⟩, false, []⟩
          (List.replicate 4 GEvent.wake)).out = [[1], [2]]
      ∧ (genRun ⟨⟨[[1], [], [2]], true⟩, false, []⟩
          (List.replicate 4 GEvent.wake)).done = true :=
  ⟨rfl, rfl,
    (c3_drain_after_finish ⟨⟨[[1], [], [2]], true⟩, false, []⟩ rfl rfl).2.1,
    (c3_drain_after_finish ⟨⟨[[1], [], [2]], true⟩, false, []⟩ rfl rfl).2.2⟩

/-- Witness for C4: tag 1 yields `"Speaker A"`. -/
theorem c4_speaker_label_witness :
    (1 : Nat) ≤ (⟨1⟩ : WordInfo).speaker_tag
      ∧ speaker_label_from_result ⟨true, [⟨"hi", [⟨1⟩]⟩]⟩
          = (pyChr (65 + (⟨1⟩ : WordInfo).speaker_tag - 1)).map
              (fun ch => "Speaker " ++ ch.toString)
      ∧ (pyChr 65).map (fun ch => "Speaker " ++ ch.toString) = some "Speaker A" :=
  ⟨by decide,
    c4_speaker_label.1 ⟨true, [⟨"hi", [⟨1⟩]⟩]⟩ ⟨"hi", [⟨1⟩]⟩ ⟨1⟩ rfl rfl (by decide),
    by decide⟩

/-- Witness for C6: `"QQ"` has invalid base64 padding; the streamer is
unchanged. -/
theorem c6_invalid_witness :
    b64decode "QQ" = none
      ∧ ChirpStreamer.add_audio_base64 ⟨[[1]], false⟩ "QQ" = ⟨[[1]], false⟩ :=
  ⟨by decide, c6_invalid_base64_dropped ⟨[[1]], false⟩ "QQ" (by decide)⟩

/-- Witness for C7: the second send fails; only the first message is
delivered, the streamer is finished, the relay stops early and `active`
stays `true`. -/
theorem c7_send_failure_witness :
    ((fun k : Nat => k == 0) 1 = false)
      ∧ (1 : Nat) < (sendables
          [⟨true, [⟨"a", []⟩]⟩, ⟨true, [⟨"b", []⟩]⟩, ⟨true, [⟨"c", []⟩]⟩]).length
      ∧ runRelay (fun k : Nat => k == 0) ⟨⟨[], false⟩, true⟩
          [⟨true, [⟨"a", []⟩]⟩, ⟨true, [⟨"b", []⟩]⟩, ⟨true, [⟨"c", []⟩]⟩]
          (some "boom")
        = ⟨⟨⟨[], true⟩, true⟩, [⟨"a", none⟩], true⟩ := by
  refine ⟨rfl, by decide, ?_⟩
  have h := c7_send_failure_stops_relay (fun k : Nat => k == 0) ⟨⟨[], false⟩, true⟩
    [⟨true, [⟨"a", []⟩]⟩, ⟨true, [⟨"b", []⟩]⟩, ⟨true, [⟨"c", []⟩]⟩]
    (some "boom") 1
    (fun i hi => by
      have hi0 : i = 0 := by omega
      subst hi0
      rfl)
    rfl (by decide)
  rw [h]
  decide

/-- Witness for C8: an error message containing `"Audio Timeout"` flips
the `active` flag to `false`. -/
theorem c8_inactive_witness :
    (⟨⟨[], false⟩, true⟩ : SharedState).active = true
      ∧ (runRelay (fun _ => true) ⟨⟨[], false⟩, true⟩ []
          (some "rpc: Audio Timeout")).shared.active = false := by
  refine ⟨rfl, ?_⟩
  have h := c8_inactive_iff_timeout (fun _ => true) ⟨⟨[], false⟩, true⟩ []
    (some "rpc: Audio Timeout") rfl (fun i hi => rfl)
  exact h.1.mpr ⟨"rpc: Audio Timeout", rfl, by decide⟩

/-- Witness for C9 (amended): `set_conversation` overwrites an existing
id, while an `end` event merges only-if-unset and breaks the loop. -/
theorem c9_rules_witness :
    (handleMessage ⟨some "c1", ⟨[], false⟩, true, 1, 1, []⟩
        ⟨some "set_conversation", none, some "c2"⟩).1.conversation_id = some "c2"
      ∧ (handleMessage ⟨none, ⟨[], false⟩, true, 1, 1, []⟩
          ⟨some "end", none, some "c3"⟩).1.conversation_id
          = adoptIfUnset none (some "c3")
      ∧ (handleMessage ⟨none, ⟨[], false⟩, true, 1, 1, []⟩
          ⟨some "end", none, some "c3"⟩).2 = false :=
  ⟨c9_conversation_id_rules.1 ⟨some "c1", ⟨[], false⟩, true, 1, 1, []⟩
      ⟨some "set_conversation", none, some "c2"⟩ "c2" rfl rfl (by decide),
    (c9_conversation_id_rules.2.2.2 ⟨none, ⟨[], false⟩, true, 1, 1, []⟩
      ⟨some "end", none, some "c3"⟩ "end" (Or.inl rfl) rfl).1,
    (c9_conversation_id_rules.2.2.2 ⟨none, ⟨[], false⟩, true, 1, 1, []⟩
      ⟨some "end", none, some "c3"⟩ "end" (Or.inl rfl) rfl).2.2⟩

/-- Witness for C10: zero tag, empty alternatives and empty word list all
yield no label. -/
theorem c10_zero_tag_witness :
    speaker_label_from_result ⟨true, [⟨"hi", [⟨0⟩]⟩]⟩ = none
      ∧ speaker_label_from_result ⟨true, []⟩ = none
      ∧ speaker_label_from_result ⟨true, [⟨"hi", []⟩]⟩ = none :=
  ⟨c10_zero_tag_and_safety.1 ⟨true, [⟨"hi", [⟨0⟩]⟩]⟩ ⟨"hi", [⟨0⟩]⟩ ⟨0⟩ rfl rfl rfl,
    c10_zero_tag_and_safety.2.1 ⟨true, []⟩ rfl,
    c10_zero_tag_and_safety.2.2 ⟨true, [⟨"hi", []⟩]⟩ ⟨"hi", []⟩ rfl rfl⟩

end ASLApp
